import Mathlib

/-!
Verification of the scdm repository's core against its specification.

The development shallowly embeds the two subsystems the claims are about:

* the ingestion pipeline of `src/parser.rs`, `src/add.rs` and `src/import.rs`
  (record types, placeholder synthesis, name extraction, chunked bulk-insert
  traces), and
* the metric query builder of `src/metric.rs` (the emitted SQL is modelled
  both as a fragment list mirroring the `QueryBuilder` pushes and, where a
  claim is about the meaning of the emitted SQL, as executable relational
  semantics over association-list tables).

Timestamps are modelled as integers (epoch milliseconds) on the ingestion
side and as rationals on the query side (PostgreSQL timestamp arithmetic at
the abstraction level of the spec); `f64` values are modelled as rationals;
UUIDs as naturals, with `Uuid::nil()` modelled as `0` and `Uuid::new_v4()`
as an injective fresh supply threaded as a counter.
-/

namespace SCDM

/-! ## Shared list helpers -/

/-- SQL LEFT JOIN over list-modelled tables: every left row is kept; a left
row with no `on`-matching right row is paired with `none` (its joined columns
are NULL), otherwise one output row per matching right row. -/
def leftJoinWith (l : List α) (r : List β) (onp : α → β → Bool)
    (mk : α → Option β → γ) : List γ :=
  l.flatMap fun a =>
    match r.filter (onp a) with
    | [] => [mk a none]
    | b :: bs => (b :: bs).map fun x => mk a (some x)

/-- Fuel-driven worker for `chunksOf` (structural recursion on the fuel so
that concrete instances reduce in the kernel); with fuel at least the list's
length the fuel never runs out. -/
def chunksOfAux : ℕ → List α → List (List α)
  | _, [] => []
  | 0, _ :: _ => []
  | f + 1, a :: rest => (a :: rest.take 1023) :: chunksOfAux f (rest.drop 1023)

/-- Rust's `slice::chunks(1024)` as used by the chunked insert functions of
`src/parser.rs`: consecutive chunks of at most 1024 elements. -/
def chunksOf (l : List α) : List (List α) := chunksOfAux l.length l

theorem chunksOfAux_congr : ∀ (f g : ℕ) (l : List α), l.length ≤ f →
    l.length ≤ g → chunksOfAux f l = chunksOfAux g l := by
  intro f
  induction f using Nat.strong_induction_on with
  | _ f ih =>
    intro g l hf hg
    match l, f, g with
    | [], f, g => cases f <;> cases g <;> rfl
    | a :: rest, 0, g => simp at hf
    | a :: rest, f + 1, 0 => simp at hg
    | a :: rest, f + 1, g + 1 =>
      simp only [chunksOfAux]
      have hd : (rest.drop 1023).length ≤ rest.length := by
        simp [List.length_drop]
      simp only [List.length_cons] at hf hg
      exact congrArg _ (ih f (Nat.lt_succ_self f) g (rest.drop 1023)
        (by omega) (by omega))

theorem chunksOf_nil : chunksOf ([] : List α) = [] := rfl

theorem chunksOf_cons (a : α) (rest : List α) :
    chunksOf (a :: rest) = (a :: rest.take 1023) :: chunksOf (rest.drop 1023) := by
  show chunksOfAux (a :: rest).length (a :: rest) = _
  simp only [List.length_cons, chunksOfAux]
  refine congrArg _ (chunksOfAux_congr _ _ _ ?_ le_rfl)
  simp [List.length_drop]

theorem chunksOfAux_le : ∀ (f : ℕ) (l c : List α), c ∈ chunksOfAux f l →
    c.length ≤ 1024 := by
  intro f
  induction f using Nat.strong_induction_on with
  | _ f ih =>
    intro l c hc
    match l, f with
    | [], f => cases f <;> simp [chunksOfAux] at hc
    | a :: rest, 0 => simp [chunksOfAux] at hc
    | a :: rest, f + 1 =>
      simp only [chunksOfAux, List.mem_cons] at hc
      rcases hc with hc | hc
      · subst hc
        have := List.length_take_le 1023 rest
        simp only [List.length_cons]
        omega
      · exact ih f (by omega) _ _ hc

theorem chunksOf_le {l c : List α} (hc : c ∈ chunksOf l) : c.length ≤ 1024 :=
  chunksOfAux_le l.length l c hc

theorem chunksOfAux_join : ∀ (f : ℕ) (l : List α), l.length ≤ f →
    (chunksOfAux f l).flatten = l := by
  intro f
  induction f using Nat.strong_induction_on with
  | _ f ih =>
    intro l hf
    match l, f with
    | [], f => cases f <;> rfl
    | a :: rest, 0 => simp at hf
    | a :: rest, f + 1 =>
      simp only [List.length_cons] at hf
      have : (rest.drop 1023).length ≤ f := by
        simp only [List.length_drop]; omega
      simp only [chunksOfAux, List.flatten_cons, ih f (by omega) _ this,
        List.cons_append]
      rw [List.take_append_drop]

theorem chunksOf_join (l : List α) : (chunksOf l).flatten = l :=
  chunksOfAux_join l.length l le_rfl

theorem chunksOf_sum_length (l : List α) :
    ((chunksOf l).map List.length).sum = l.length := by
  conv_rhs => rw [← chunksOf_join l]
  rw [List.length_flatten]

/-! ## The document model (src/parser.rs)

The `*Json` structs of `src/parser.rs` nest their foreign keys inside wrapper
structs (`RunFKJson` and the like) and a `cdm` version tag; the embedding
flattens each record to the fields that are read anywhere (the `cdm.ver` tag
is carried nowhere, so it is dropped). Field `class` of Rust is `class_` here
(`class` is a Lean keyword); timestamps are epoch milliseconds. -/

/-- A `serde_json::Value` stored in a MetricDesc `names` map. Only `as_str`
is ever applied to one (in `extract_names`), which is `some` exactly on the
String variant; array and object payloads are therefore not carried. -/
inductive JValue
  | vstr (s : String)
  | vnum (q : ℚ)
  | vbool (b : Bool)
  | vnull
  | varr
  | vobj
deriving DecidableEq, Repr

structure RunJ where
  run_uuid : ℕ
  begin_ : ℤ
  finish : ℤ
  benchmark : String
  email : String
  name : String
  description : Option String
  source : String
deriving DecidableEq, Repr

structure TagJ where
  run_uuid : ℕ
  name : String
  val : String
deriving DecidableEq, Repr

structure IterationJ where
  iteration_uuid : ℕ
  num : ℤ
  primary_metric : String
  primary_period : String
  status : String
  path : Option String
  run_uuid : ℕ
deriving DecidableEq, Repr

structure ParamJ where
  iteration_uuid : ℕ
  arg : String
  val : String
deriving DecidableEq, Repr

structure SampleJ where
  sample_uuid : ℕ
  path : Option String
  status : String
  num : ℤ
  iteration_uuid : ℕ
  run_uuid : ℕ
deriving DecidableEq, Repr

structure PeriodJ where
  period_uuid : ℕ
  begin_ : ℤ
  finish : ℤ
  name : String
  iteration_uuid : ℕ
  run_uuid : ℕ
  sample_uuid : ℕ
deriving DecidableEq, Repr

structure MetricDescJ where
  metric_desc_uuid : ℕ
  class_ : String
  names : List (String × JValue)
  names_list : List String
  source : String
  metric_type : String
  iteration_uuid : Option ℕ
  period_uuid : Option ℕ
  sample_uuid : Option ℕ
  run_uuid : ℕ
deriving DecidableEq, Repr

structure MetricDataJ where
  metric_desc_uuid : ℕ
  run_uuid : ℕ
  begin_ : ℤ
  finish : ℤ
  duration : ℤ
  value : ℚ
deriving DecidableEq, Repr

/-- `cdm::Name`: the struct is declared in `src/cdm.rs` of the repository
(not among the staged sources); its three fields are fixed by its
construction in `extract_names` and its binds in `insert_names`. -/
structure NameRow where
  metric_desc_uuid : ℕ
  name : String
  val : String
deriving DecidableEq, Repr

/-- `BodyJson` of src/parser.rs: the tagged union over the record kinds. -/
inductive BodyJson
  | run (r : RunJ)
  | tag (t : TagJ)
  | iteration (it : IterationJ)
  | param (p : ParamJ)
  | sample (s : SampleJ)
  | period (p : PeriodJ)
  | metricDesc (d : MetricDescJ)
  | metricData (d : MetricDataJ)
  | name (n : NameRow)
deriving DecidableEq, Repr

/-! ## Placeholder ("global") synthesis (src/parser.rs, the Global impls) -/

/-- `IterationJson::global(parent_uuid, my_uuid)`. -/
def iterationGlobal (parent my : ℕ) : IterationJ :=
  { iteration_uuid := my, num := 0, primary_metric := "global",
    primary_period := "global", status := "pass", path := none,
    run_uuid := parent }

/-- `SampleJson::global(parent_uuid, my_uuid)` (`run` is `Uuid::nil()`). -/
def sampleGlobal (parent my : ℕ) : SampleJ :=
  { sample_uuid := my, path := none, status := "pass", num := 0,
    iteration_uuid := parent, run_uuid := 0 }

/-- `PeriodJson::global(parent_uuid, my_uuid)`. -/
def periodGlobal (parent my : ℕ) : PeriodJ :=
  { period_uuid := my, begin_ := 0, finish := 0, name := "global",
    iteration_uuid := 0, run_uuid := 0, sample_uuid := parent }

/-- `MetricDescJson::global(parent_uuid, my_uuid)`. -/
def metricDescGlobal (parent my : ℕ) : MetricDescJ :=
  { metric_desc_uuid := my, class_ := "count", names := [], names_list := [],
    source := "global", metric_type := "global", iteration_uuid := none,
    period_uuid := some parent, sample_uuid := none, run_uuid := 0 }

/-- `MetricDataJson::global(parent_uuid, _my_uuid)`: a zero point attached to
the placeholder MetricDesc. -/
def metricDataGlobal (parent : ℕ) : MetricDataJ :=
  { metric_desc_uuid := parent, run_uuid := 0, begin_ := 0, finish := 0,
    duration := 0, value := 0 }

/-- `GlobalResource` of src/parser.rs. -/
structure GlobalResource where
  iteration : IterationJ
  sample : SampleJ
  period : PeriodJ
  metric_desc : MetricDescJ
  metric_data : MetricDataJ
deriving DecidableEq, Repr

/-- The chain synthesized for one run inside `insert_runs`' `push_values`
closure: four fresh UUIDs (modelled as the counter values `base`..`base+3`),
each level parented on the previous one's UUID. -/
def mkGlobalResource (run_uuid base : ℕ) : GlobalResource :=
  { iteration := iterationGlobal run_uuid base,
    sample := sampleGlobal base (base + 1),
    period := periodGlobal (base + 1) (base + 2),
    metric_desc := metricDescGlobal (base + 2) (base + 3),
    metric_data := metricDataGlobal (base + 3) }

/-- The `globals: HashMap<Uuid, GlobalResource>` entries `insert_runs` adds,
in run order; the fresh-UUID counter advances by 4 per run. -/
def runGlobals (fresh : ℕ) : List RunJ → List (ℕ × GlobalResource)
  | [] => []
  | r :: rs => (r.run_uuid, mkGlobalResource r.run_uuid fresh) ::
      runGlobals (fresh + 4) rs

/-- `HashMap::get` against the insertion list: a later `insert` of the same
key overwrites an earlier one, so the lookup scans from the latest entry. -/
def globalsLookup (g : List (ℕ × GlobalResource)) (u : ℕ) : Option GlobalResource :=
  match g with
  | [] => none
  | (k, v) :: rest =>
    match globalsLookup rest u with
    | some w => some w
    | none => if k = u then some v else none

/-- The period reference bound for a MetricDesc row (`insert_metric_descs`):
the record's own `period` FK, or else the placeholder period of its run. -/
def resolvePeriod (g : List (ℕ × GlobalResource)) (md : MetricDescJ) : Option ℕ :=
  match md.period_uuid with
  | some pu => some pu
  | none => (globalsLookup g md.run_uuid).map fun r => r.period.period_uuid

/-- `extract_names` of src/parser.rs: one Name row per string-valued entry of
the `names` map; entries whose value is not a string yield none. -/
def extractNames (md : MetricDescJ) : List NameRow :=
  md.names.filterMap fun kv =>
    match kv.2 with
    | .vstr val => some { metric_desc_uuid := md.metric_desc_uuid,
                          name := kv.1, val := val }
    | _ => none

/-! ## The batch writer as an insert-statement trace (src/parser.rs)

Each executed multi-row `INSERT` becomes one `Stmt` carrying the rows it
binds; an insert function returns its statement list (in execution order)
together with the `rows_affected` sum it reports. -/

/-- The row bound per MetricDesc by `insert_metric_descs`: the record with
its period reference resolved through the placeholder map. -/
structure MetricDescRow where
  metric_desc_uuid : ℕ
  period_uuid : Option ℕ
  class_ : String
  metric_type : String
  source : String
  names_list : List String
  names : List (String × JValue)
deriving DecidableEq, Repr

/-- One executed INSERT statement, tagged by target table. -/
inductive Stmt
  | runs (rs : List RunJ)
  | tags (ts : List TagJ)
  | iterations (its : List IterationJ)
  | params (ps : List ParamJ)
  | samples (ss : List SampleJ)
  | periods (ps : List PeriodJ)
  | metricDescs (rows : List MetricDescRow)
  | names (rows : List NameRow)
  | metricDatas (rows : List MetricDataJ)
deriving DecidableEq, Repr

/-- The record kinds, in the insert order of `insert_records`. -/
inductive Kind
  | run | tag | iteration | param | sample | period | metricDesc | name
  | metricData
deriving DecidableEq, Repr

def kindOf : Stmt → Kind
  | .runs _ => .run
  | .tags _ => .tag
  | .iterations _ => .iteration
  | .params _ => .param
  | .samples _ => .sample
  | .periods _ => .period
  | .metricDescs _ => .metricDesc
  | .names _ => .name
  | .metricDatas _ => .metricData

/-- `PG_VAR_NUM_LIMIT` of src/query.rs: the backend's bound-parameter cap. -/
def pgVarNumLimit : ℕ := 65535

/-- The Name rows a statement binds (empty for other kinds). -/
def stmtNameRows : Stmt → List NameRow
  | .names rows => rows
  | _ => []

/-- The MetricDesc rows a statement binds (empty for other kinds). -/
def stmtDescRows : Stmt → List MetricDescRow
  | .metricDescs rows => rows
  | _ => []

/-- The MetricData rows a statement binds (empty for other kinds). -/
def stmtDataRows : Stmt → List MetricDataJ
  | .metricDatas rows => rows
  | _ => []

/-- What `insert_runs` produces: its trace, its reported row count, the
filled placeholder map, and the five synthesized global record lists that
the callers append to the authored batches. -/
structure RunsInsertResult where
  trace : List Stmt
  rows : ℕ
  globals : List (ℕ × GlobalResource)
  gIterations : List IterationJ
  gSamples : List SampleJ
  gPeriods : List PeriodJ
  gDescs : List MetricDescJ
  gDatas : List MetricDataJ

/-- `insert_runs`: empty batch is a no-op; a non-empty batch is one single
multi-row INSERT (no chunking), and per run one placeholder chain is
synthesized and recorded in the map. -/
def insertRunsTr (fresh : ℕ) (runs : List RunJ) : RunsInsertResult :=
  let g := runGlobals fresh runs
  { trace := if runs.isEmpty then [] else [Stmt.runs runs]
    rows := runs.length
    globals := g
    gIterations := g.map fun e => e.2.iteration
    gSamples := g.map fun e => e.2.sample
    gPeriods := g.map fun e => e.2.period
    gDescs := g.map fun e => e.2.metric_desc
    gDatas := g.map fun e => e.2.metric_data }

/-- `insert_tags`: one statement for the whole batch, none when empty. -/
def insertTagsTr (ts : List TagJ) : List Stmt × ℕ :=
  if ts.isEmpty then ([], 0) else ([Stmt.tags ts], ts.length)

/-- `insert_iterations`: one statement for the whole batch, none when empty. -/
def insertIterationsTr (its : List IterationJ) : List Stmt × ℕ :=
  if its.isEmpty then ([], 0) else ([Stmt.iterations its], its.length)

/-- `insert_params`: one statement for the whole batch, none when empty. -/
def insertParamsTr (ps : List ParamJ) : List Stmt × ℕ :=
  if ps.isEmpty then ([], 0) else ([Stmt.params ps], ps.length)

/-- `insert_samples`: one statement for the whole batch, none when empty. -/
def insertSamplesTr (ss : List SampleJ) : List Stmt × ℕ :=
  if ss.isEmpty then ([], 0) else ([Stmt.samples ss], ss.length)

/-- `insert_periods`: one statement for the whole batch, none when empty. -/
def insertPeriodsTr (ps : List PeriodJ) : List Stmt × ℕ :=
  if ps.isEmpty then ([], 0) else ([Stmt.periods ps], ps.length)

/-- The row `insert_metric_descs` binds for one MetricDesc. -/
def descRow (g : List (ℕ × GlobalResource)) (md : MetricDescJ) : MetricDescRow :=
  { metric_desc_uuid := md.metric_desc_uuid
    period_uuid := resolvePeriod g md
    class_ := md.class_
    metric_type := md.metric_type
    source := md.source
    names_list := md.names_list
    names := md.names }

/-- `insert_metric_descs`: the batch is chunked (`chunks(1024)`), one
statement per chunk; the reported count sums the chunk row counts. -/
def insertMetricDescsTr (g : List (ℕ × GlobalResource)) (ds : List MetricDescJ) :
    List Stmt × ℕ :=
  if ds.isEmpty then ([], 0)
  else
    ((chunksOf ds).map fun grp => Stmt.metricDescs (grp.map (descRow g)),
     ((chunksOf ds).map List.length).sum)

/-- `insert_names`: chunked like `insert_metric_descs`. -/
def insertNamesTr (ns : List NameRow) : List Stmt × ℕ :=
  if ns.isEmpty then ([], 0)
  else ((chunksOf ns).map Stmt.names, ((chunksOf ns).map List.length).sum)

/-- `insert_metric_datas`: chunked like `insert_metric_descs`. -/
def insertMetricDatasTr (ds : List MetricDataJ) : List Stmt × ℕ :=
  if ds.isEmpty then ([], 0)
  else ((chunksOf ds).map Stmt.metricDatas, ((chunksOf ds).map List.length).sum)

/-- The per-kind buckets `insert_records` builds from its record list
(order-preserving, as the `match` loop pushes). -/
def bucketRuns (records : List BodyJson) : List RunJ :=
  records.filterMap fun b => match b with | .run r => some r | _ => none

def bucketTags (records : List BodyJson) : List TagJ :=
  records.filterMap fun b => match b with | .tag t => some t | _ => none

def bucketIterations (records : List BodyJson) : List IterationJ :=
  records.filterMap fun b => match b with | .iteration i => some i | _ => none

def bucketParams (records : List BodyJson) : List ParamJ :=
  records.filterMap fun b => match b with | .param p => some p | _ => none

def bucketSamples (records : List BodyJson) : List SampleJ :=
  records.filterMap fun b => match b with | .sample s => some s | _ => none

def bucketPeriods (records : List BodyJson) : List PeriodJ :=
  records.filterMap fun b => match b with | .period p => some p | _ => none

def bucketMetricDescs (records : List BodyJson) : List MetricDescJ :=
  records.filterMap fun b => match b with | .metricDesc d => some d | _ => none

def bucketMetricDatas (records : List BodyJson) : List MetricDataJ :=
  records.filterMap fun b => match b with | .metricData d => some d | _ => none

def bucketNames (records : List BodyJson) : List NameRow :=
  records.filterMap fun b => match b with | .name n => some n | _ => none

/-- `insert_records` of src/parser.rs: buckets the records, extracts Name
rows from the authored MetricDescs, synthesizes and appends the placeholder
records, and runs the per-kind inserts in the fixed order Run, Tag,
Iteration, Param, Sample, Period, MetricDesc, Name, MetricData. Both the
`parse` (flat ndjson) and `add` (nested tree) commands commit through this
function. -/
def insertRecordsTr (fresh : ℕ) (records : List BodyJson) : List Stmt × ℕ :=
  let runs := bucketRuns records
  let tags := bucketTags records
  let iterations := bucketIterations records
  let params := bucketParams records
  let samples := bucketSamples records
  let periods := bucketPeriods records
  let metricDescs := bucketMetricDescs records
  let metricDatas := bucketMetricDatas records
  let names := bucketNames records ++ metricDescs.flatMap extractNames
  let rr := insertRunsTr fresh runs
  let iterations := iterations ++ rr.gIterations
  let samples := samples ++ rr.gSamples
  let periods := periods ++ rr.gPeriods
  let metricDescs := metricDescs ++ rr.gDescs
  let metricDatas := metricDatas ++ rr.gDatas
  let tt := insertTagsTr tags
  let ti := insertIterationsTr iterations
  let tp := insertParamsTr params
  let ts := insertSamplesTr samples
  let tpd := insertPeriodsTr periods
  let td := insertMetricDescsTr rr.globals metricDescs
  let tn := insertNamesTr names
  let tmd := insertMetricDatasTr metricDatas
  (rr.trace ++ tt.1 ++ ti.1 ++ tp.1 ++ ts.1 ++ tpd.1 ++ td.1 ++ tn.1 ++ tmd.1,
   rr.rows + tt.2 + ti.2 + tp.2 + ts.2 + tpd.2 + td.2 + tn.2 + tmd.2)

/-- The transaction body of one `import` query round (src/import.rs): the
same insert sequence except that no Name rows are derived or inserted. -/
def importTr (fresh : ℕ) (runs : List RunJ) (tags : List TagJ)
    (iterations : List IterationJ) (params : List ParamJ)
    (samples : List SampleJ) (periods : List PeriodJ)
    (metricDescs : List MetricDescJ) (metricDatas : List MetricDataJ) :
    List Stmt × ℕ :=
  let rr := insertRunsTr fresh runs
  let iterations := iterations ++ rr.gIterations
  let samples := samples ++ rr.gSamples
  let periods := periods ++ rr.gPeriods
  let metricDescs := metricDescs ++ rr.gDescs
  let metricDatas := metricDatas ++ rr.gDatas
  let tt := insertTagsTr tags
  let ti := insertIterationsTr iterations
  let tp := insertParamsTr params
  let ts := insertSamplesTr samples
  let tpd := insertPeriodsTr periods
  let td := insertMetricDescsTr rr.globals metricDescs
  let tmd := insertMetricDatasTr metricDatas
  (rr.trace ++ tt.1 ++ ti.1 ++ tp.1 ++ ts.1 ++ tpd.1 ++ td.1 ++ tmd.1,
   rr.rows + tt.2 + ti.2 + tp.2 + ts.2 + tpd.2 + td.2 + tmd.2)

/-! ## The nested-tree input (src/add.rs)

The `*Node` structs, with maps modelled as association lists and data
points at millisecond precision (they are deserialized from epoch-millis
arrays by `point_from_array`). -/

structure PointN where
  begin_ : ℤ
  finish : ℤ
  value : ℚ
deriving DecidableEq, Repr

structure MetricNode where
  metric_desc_uuid : ℕ
  class_ : String
  metric_type : String
  source : String
  names : List (String × String)
  data : List PointN
deriving DecidableEq, Repr

structure PeriodNode where
  period_uuid : ℕ
  begin_ : ℤ
  finish : ℤ
  name : String
  metrics : List MetricNode
deriving DecidableEq, Repr

structure SampleNode where
  sample_uuid : ℕ
  num : ℤ
  status : String
  path : Option String
  periods : List PeriodNode
deriving DecidableEq, Repr

structure IterationNode where
  iteration_uuid : ℕ
  num : ℤ
  status : String
  path : Option String
  primary_metric : String
  primary_period : String
  params : List (String × String)
  samples : List SampleNode
deriving DecidableEq, Repr

structure RunNode where
  run_uuid : ℕ
  begin_ : ℤ
  finish : ℤ
  benchmark : String
  email : String
  name : String
  description : Option String
  source : String
  tags : List (String × String)
  iterations : List IterationNode
deriving DecidableEq, Repr

/-- `run_to_body_jsons` of src/add.rs: flattens one nested run tree into the
body list `insert_records` consumes, propagating parent UUIDs downward; each
MetricData point's `duration` is computed as `finish - begin` (in
milliseconds, `TimeDelta::num_milliseconds`). The `params` of an iteration
node are read but never emitted as bodies, as in the source. -/
def runToBodyJsons (rn : RunNode) : List BodyJson :=
  [BodyJson.run
    { run_uuid := rn.run_uuid, begin_ := rn.begin_, finish := rn.finish,
      benchmark := rn.benchmark, email := rn.email, name := rn.name,
      description := rn.description, source := rn.source }]
  ++ rn.tags.map (fun kv =>
      BodyJson.tag { run_uuid := rn.run_uuid, name := kv.1, val := kv.2 })
  ++ rn.iterations.flatMap fun it =>
    [BodyJson.iteration
      { iteration_uuid := it.iteration_uuid, num := it.num,
        primary_metric := it.primary_metric,
        primary_period := it.primary_period, status := it.status,
        path := it.path, run_uuid := rn.run_uuid }]
    ++ it.samples.flatMap fun s =>
      [BodyJson.sample
        { sample_uuid := s.sample_uuid, path := s.path, num := s.num,
          status := s.status, iteration_uuid := it.iteration_uuid,
          run_uuid := rn.run_uuid }]
      ++ s.periods.flatMap fun p =>
        [BodyJson.period
          { period_uuid := p.period_uuid, begin_ := p.begin_,
            finish := p.finish, name := p.name,
            iteration_uuid := it.iteration_uuid, run_uuid := rn.run_uuid,
            sample_uuid := s.sample_uuid }]
        ++ p.metrics.flatMap fun m =>
          [BodyJson.metricDesc
            { metric_desc_uuid := m.metric_desc_uuid, class_ := m.class_,
              metric_type := m.metric_type, source := m.source,
              names_list := m.names.map Prod.fst,
              names := m.names.map (fun kv => (kv.1, JValue.vstr kv.2)),
              iteration_uuid := some it.iteration_uuid,
              period_uuid := some p.period_uuid,
              sample_uuid := some s.sample_uuid, run_uuid := rn.run_uuid }]
          ++ m.data.map fun pt =>
            BodyJson.metricData
              { metric_desc_uuid := m.metric_desc_uuid,
                run_uuid := rn.run_uuid, begin_ := pt.begin_,
                finish := pt.finish, duration := pt.finish - pt.begin_,
                value := pt.value }

/-! ## The flat event stream (src/parser.rs, `MetricDataSpecJson`) -/

/-- The fields of one `metric_data` body document as deserialized: `begin`
and `end` through `date_time_utc_from_str`, `duration` as a plain `i64`,
`value` through `number_from_str`. -/
structure MetricDataDoc where
  begin_ : ℤ
  end_ : ℤ
  duration : ℤ
  value : ℚ
deriving DecidableEq, Repr

/-- The `MetricDataJson` the flat-stream deserializer yields from one
index/body pair: every spec field is taken verbatim from the document — in
particular `duration` is the document's own number, with no relation to
`end - begin` parsed, checked or recomputed. -/
def parseMetricDataBody (descUuid runUuid : ℕ) (doc : MetricDataDoc) :
    MetricDataJ :=
  { metric_desc_uuid := descUuid, run_uuid := runUuid, begin_ := doc.begin_,
    finish := doc.end_, duration := doc.duration, value := doc.value }

/-! ## The metric query builder (src/metric.rs)

The builder is embedded twice: as the fragment list its `QueryBuilder`
pushes produce (for claims about the emitted statement's shape), and as
executable relational semantics of the emitted SQL (for claims about what
the statement computes). SQL text constants are quoted with their
whitespace normalized to single spaces. -/

/-- `Aggregator` of src/args.rs. -/
inductive Aggregator
  | none | avg | weightedAvg | stddev | min | max
deriving DecidableEq, Repr

/-- One piece a `QueryBuilder` push appends: a fixed SQL literal, the two
`format!`-built pieces (the subquery's closing alias, and an ON equality of
two `metric_desc_uuid` columns), or a bind parameter. -/
inductive Frag
  | sql (s : String)
  | sqlAlias (a : String)
  | sqlOnEq (l r : String)
  | bindStr (s : String)
  | bindUuid (u : ℕ)
deriving DecidableEq, Repr

/-- The fixed head of `push_metric_subquery`'s correlated subquery. -/
def metricSubqueryPart : String :=
  " (SELECT name.metric_desc_uuid as metric_desc_uuid, metric_desc.metric_type as metric_type, name.val as name_value, metric_data.value as metric_value FROM metric_desc, name, metric_data WHERE metric_desc.metric_desc_uuid = name.metric_desc_uuid AND name.metric_desc_uuid = metric_data.metric_desc_uuid "

/-- The `duration_correction` SQL of the weighted-avg aggregator. -/
def durationCorrectionSql : String :=
  " ( metric_data.duration - (EXTRACT(EPOCH FROM (metric_data.begin))::bigint * 1000 - EXTRACT(EPOCH FROM (woi.window_begin))::bigint * 1000) - (EXTRACT(EPOCH FROM (woi.window_finish))::bigint * 1000 - EXTRACT(EPOCH FROM (metric_data.finish))::bigint * 1000) ) "

/-- `push_choose_aggregator` of src/metric.rs. -/
def pushChooseAggregatorFrags : Aggregator → List Frag
  | .none => [.sql "metric_data.value as value"]
  | .avg => [.sql "AVG(metric_data.value) as avg"]
  | .weightedAvg =>
      [.sql "SUM(metric_data.value * ", .sql durationCorrectionSql,
       .sql " ) / SUM( ", .sql durationCorrectionSql,
       .sql " ) as weighted_avg"]
  | .stddev => [.sql "STDDEV(metric_data.value) as stddev"]
  | .min => [.sql "MIN(metric_data.value) as min"]
  | .max => [.sql "MAX(metric_data.value) as max"]

/-- `push_metric_subquery` of src/metric.rs: the subquery head, the optional
`name.name` and `name.val` filters with their binds, and the closing
`) as "alias"` where the alias defaults to `base`. -/
def pushMetricSubqueryFrags (maybeName maybeValue : Option String) : List Frag :=
  [Frag.sql metricSubqueryPart]
  ++ (match maybeName with
      | some n => [Frag.sql " AND name.name = ", Frag.bindStr n]
      | none => [])
  ++ (match maybeValue with
      | some v => [Frag.sql " AND name.val = ", Frag.bindStr v]
      | none => [])
  ++ [Frag.sqlAlias (maybeName.getD "base")]

/-- The `for (i, (name, maybe_value)) in names.iter().enumerate().skip(1)`
loop of `query_metric`: each further breakout subquery is chained to the
previous one by an ON equality on `metric_desc_uuid`, with a `LEFT JOIN`
separator before every token except the last. -/
def chainFrags (total : ℕ) : ℕ → String → List (String × Option String) → List Frag
  | _, _, [] => []
  | i, lastName, (n, v) :: rest =>
    pushMetricSubqueryFrags (some n) v
    ++ [Frag.sql " ON ", Frag.sqlOnEq lastName n]
    ++ (if i < total - 1 then [Frag.sql " LEFT JOIN "] else [])
    ++ chainFrags total (i + 1) n rest

/-- The base ("anchor") name and value: the first breakout token, or
`("base", none)` when no token was given. -/
def anchorOf (names : List (String × Option String)) : String × Option String :=
  match names.head? with
  | some f => (f.1, f.2)
  | none => ("base", none)

/-- The breakout section of `query_metric` (everything emitted after the
trailing `LEFT JOIN` of the fixed join part): the anchor subquery, an ON
clause for it only when there is more than one token (`sqlOnEq
"metric_desc" base` standing for `metric_desc.metric_desc_uuid =
"base".metric_desc_uuid`), then the chained further subqueries. -/
def breakoutJoinFrags (names : List (String × Option String)) : List Frag :=
  let a := anchorOf names
  pushMetricSubqueryFrags (some a.1) a.2
  ++ (if 1 < names.length then
        [Frag.sql " ON ", Frag.sqlOnEq "metric_desc" a.1,
         Frag.sql " LEFT JOIN "]
      else [])
  ++ chainFrags names.length 1 a.1 (names.drop 1)

/-! ### The weighted-avg duration correction, numerically

`EXTRACT(EPOCH FROM t)::bigint * 1000` of a whole-second timestamp `t` is
its epoch-second count times 1000; `metric_data.duration` is in
milliseconds. -/

/-- The value of `duration_correction` for a point with bounds `pb`/`pf`
and a window with bounds `wb`/`wf` (all whole epoch seconds) and reported
duration `durationMs`. -/
def adjustedDuration (durationMs pb pf wb wf : ℤ) : ℤ :=
  durationMs - (pb * 1000 - wb * 1000) - (wf * 1000 - pf * 1000)

/-- What the spec's words prescribe for the same inputs: the reported
duration minus only the portions of the point lying outside the window on
either edge. -/
def specAdjustedDuration (durationMs pb pf wb wf : ℤ) : ℤ :=
  durationMs - 1000 * max 0 (wb - pb) - 1000 * max 0 (pf - wf)

/-! ### The point/window overlap filter -/

/-- The overlap predicate of the `ref_period` branch of `query_metric`'s
WHERE clause (lines 317-327). -/
def overlapFilterRef (pb pf wb wf : ℚ) : Bool :=
  (pb > wb && pb < wf) || (pf > wb && pf < wf) || (pb < wb && pf > wf)

/-- The overlap predicate of the explicit begin/finish branch (lines
328-349): the same three clauses with the bound range endpoints. -/
def overlapFilterRange (pb pf wb wf : ℚ) : Bool :=
  (pb > wb && pb < wf) || (pf > wb && pf < wf) || (pb < wb && pf > wf)

/-! ### The time-window generator

Both time-selector branches emit the same window arithmetic: a step
`(t1 - t0)/resolution`, `generate_series(t0, t1, step)` as the window
begins, `window_finish = window_begin + step`, `ORDER BY window_begin,
window_finish LIMIT resolution`. Timestamps are modelled as rationals;
`generate_series` is ascending for a positive step, so the ORDER BY is the
identity and LIMIT is `take`. -/

/-- PostgreSQL `generate_series(start, stop, step)` for the positive-step
regime the builder uses: `start, start+step, ...` while the value is at most
`stop` (zero step is an error and a negative step counts down; neither is
reachable from `timeWindows` under the claims' hypotheses). -/
def generateSeries (start stop step : ℚ) : List ℚ :=
  if 0 < step ∧ start ≤ stop then
    (List.range (⌊(stop - start) / step⌋₊ + 1)).map
      fun (k : ℕ) => start + (k : ℚ) * step
  else []

/-- The `woi` relation of `query_metric` for a reference interval
`[t0, t1)` and a resolution: the generated windows in order. -/
def timeWindows (t0 t1 : ℚ) (resolution : ℕ) : List (ℚ × ℚ) :=
  let d := (t1 - t0) / (resolution : ℚ)
  (((generateSeries t0 t1 d).map fun wb => (wb, wb + d)).take resolution)

/-! ### Relational semantics of the built statement

Tables are lists of rows carrying the columns the statement touches. -/

structure RunRow where
  run_uuid : ℕ
deriving DecidableEq, Repr

structure IterationRow where
  iteration_uuid : ℕ
  run_uuid : ℕ
deriving DecidableEq, Repr

structure SampleRow where
  sample_uuid : ℕ
  iteration_uuid : ℕ
deriving DecidableEq, Repr

structure PeriodRow where
  period_uuid : ℕ
  sample_uuid : ℕ
deriving DecidableEq, Repr

structure MetricDescDbRow where
  metric_desc_uuid : ℕ
  period_uuid : Option ℕ
  metric_type : String
deriving DecidableEq, Repr

structure NameDbRow where
  metric_desc_uuid : ℕ
  name : String
  val : String
deriving DecidableEq, Repr

structure MetricDataDbRow where
  metric_desc_uuid : ℕ
  value : ℚ
  begin_ : ℤ
  finish : ℤ
  duration : ℤ
deriving DecidableEq, Repr

structure Db where
  runs : List RunRow
  iterations : List IterationRow
  samples : List SampleRow
  periods : List PeriodRow
  metric_descs : List MetricDescDbRow
  names : List NameDbRow
  metric_datas : List MetricDataDbRow
deriving DecidableEq, Repr

/-- The projected row of one breakout subquery. -/
structure SubRow where
  metric_desc_uuid : ℕ
  metric_type : String
  name_value : String
  metric_value : ℚ
deriving DecidableEq, Repr

/-- The semantics of `push_metric_subquery`'s correlated subquery: the
cross product of `metric_desc`, `name` and `metric_data` filtered by the
two uuid equalities and by the optional `name.name` / `name.val` filters. -/
def subqueryRows (db : Db) (maybeName maybeValue : Option String) :
    List SubRow :=
  (db.metric_descs.flatMap fun d =>
    db.names.flatMap fun n =>
      db.metric_datas.map fun md => (d, n, md)).filterMap
    fun t =>
      if t.1.metric_desc_uuid == t.2.1.metric_desc_uuid
          && t.2.1.metric_desc_uuid == t.2.2.metric_desc_uuid
          && (match maybeName with
              | some nm => t.2.1.name == nm
              | none => true)
          && (match maybeValue with
              | some v => t.2.1.val == v
              | none => true) then
        some { metric_desc_uuid := t.2.1.metric_desc_uuid,
               metric_type := t.1.metric_type,
               name_value := t.2.1.val,
               metric_value := t.2.2.value }
      else none

/-- One row of the statement built for the breakout tokens
`["host", "env=prod"]`, after all joins: the base `metric_data` row and the
LEFT-JOINed (hence optional) columns of each joined relation. -/
structure JoinedRow where
  md : MetricDataDbRow
  desc : Option MetricDescDbRow
  period : Option PeriodRow
  sample : Option SampleRow
  iteration : Option IterationRow
  run : Option RunRow
  host : Option SubRow
  env : Option SubRow
deriving DecidableEq, Repr

/-! The FROM/JOIN clause of the statement `query_metric` builds for the
breakout tokens `["host", "env=prod"]`, one definition per LEFT JOIN in
emission order: `FROM metric_data` LEFT JOINed with `metric_desc`,
`period`, `sample`, `iteration`, `run`, then the `"host"` subquery ON
`metric_desc.metric_desc_uuid = "host".metric_desc_uuid` and the `"env"`
subquery ON `"host".metric_desc_uuid = "env".metric_desc_uuid`. A NULL
column on the left side of an ON equality compares as not-matched, as in
SQL three-valued logic. -/

/-- `FROM metric_data`: one row per data point, all joined columns NULL. -/
def baseRows (db : Db) : List JoinedRow :=
  db.metric_datas.map fun md =>
    { md := md, desc := none, period := none, sample := none,
      iteration := none, run := none, host := none, env := none }

/-- `LEFT JOIN metric_desc ON metric_desc.metric_desc_uuid =
metric_data.metric_desc_uuid`. -/
def joinDesc (db : Db) : List JoinedRow :=
  leftJoinWith (baseRows db) db.metric_descs
    (fun row d => row.md.metric_desc_uuid == d.metric_desc_uuid)
    (fun row d? => { row with desc := d? })

/-- `LEFT JOIN period ON period.period_uuid = metric_desc.period_uuid`. -/
def joinPeriod (db : Db) : List JoinedRow :=
  leftJoinWith (joinDesc db) db.periods
    (fun row p =>
      match row.desc with
      | some d =>
        match d.period_uuid with
        | some pu => pu == p.period_uuid
        | none => false
      | none => false)
    (fun row p? => { row with period := p? })

/-- `LEFT JOIN sample ON sample.sample_uuid = period.sample_uuid`. -/
def joinSample (db : Db) : List JoinedRow :=
  leftJoinWith (joinPeriod db) db.samples
    (fun row s =>
      match row.period with
      | some p => p.sample_uuid == s.sample_uuid
      | none => false)
    (fun row s? => { row with sample := s? })

/-- `LEFT JOIN iteration ON iteration.iteration_uuid =
sample.iteration_uuid`. -/
def joinIteration (db : Db) : List JoinedRow :=
  leftJoinWith (joinSample db) db.iterations
    (fun row i =>
      match row.sample with
      | some s => s.iteration_uuid == i.iteration_uuid
      | none => false)
    (fun row i? => { row with iteration := i? })

/-- `LEFT JOIN run ON run.run_uuid = iteration.run_uuid`. -/
def joinRun (db : Db) : List JoinedRow :=
  leftJoinWith (joinIteration db) db.runs
    (fun row r =>
      match row.iteration with
      | some it => it.run_uuid == r.run_uuid
      | none => false)
    (fun row r? => { row with run := r? })

/-- `LEFT JOIN (host subquery) ON metric_desc.metric_desc_uuid =
"host".metric_desc_uuid`. -/
def joinHost (db : Db) : List JoinedRow :=
  leftJoinWith (joinRun db) (subqueryRows db (some "host") none)
    (fun row h =>
      match row.desc with
      | some d => d.metric_desc_uuid == h.metric_desc_uuid
      | none => false)
    (fun row h? => { row with host := h? })

/-- `LEFT JOIN (env=prod subquery) ON "host".metric_desc_uuid =
"env".metric_desc_uuid`: the full joined row set of the two-token query. -/
def hostEnvQueryRows (db : Db) : List JoinedRow :=
  leftJoinWith (joinHost db) (subqueryRows db (some "env") (some "prod"))
    (fun row e =>
      match row.host with
      | some h => h.metric_desc_uuid == e.metric_desc_uuid
      | none => false)
    (fun row e? => { row with env := e? })

/-! ## Concrete inputs used by witnesses and counterexamples -/

def tagA : TagJ := { run_uuid := 1, name := "os", val := "linux" }

def runA : RunJ :=
  { run_uuid := 7, begin_ := 0, finish := 1000, benchmark := "b",
    email := "e", name := "n", description := none, source := "s" }

/-- A flat-stream metric_data document whose stated duration (7 ms) is not
`end - begin` (1000 ms). -/
def docBad : MetricDataDoc := { begin_ := 0, end_ := 1000, duration := 7, value := 2 }

/-- The record the flat-stream deserializer yields from `docBad`. -/
def mdBad : MetricDataJ := parseMetricDataBody 1 9 docBad

/-- A MetricDesc arriving through `import` with one string-valued name. -/
def descImp : MetricDescJ :=
  { metric_desc_uuid := 1, class_ := "count", names := [("host", JValue.vstr "a")],
    names_list := ["host"], source := "s", metric_type := "t",
    iteration_uuid := none, period_uuid := none, sample_uuid := none,
    run_uuid := 9 }

def dataImp : MetricDataJ :=
  { metric_desc_uuid := 1, run_uuid := 9, begin_ := 0, finish := 1000,
    duration := 1000, value := 3 }

/-- A second imported MetricDesc, for the insert-order counterexample. -/
def descImpB : MetricDescJ :=
  { metric_desc_uuid := 2, class_ := "count", names := [("env", JValue.vstr "prod")],
    names_list := ["env"], source := "s", metric_type := "t",
    iteration_uuid := none, period_uuid := none, sample_uuid := none,
    run_uuid := 9 }

def dataImpB : MetricDataJ :=
  { metric_desc_uuid := 2, run_uuid := 9, begin_ := 0, finish := 1000,
    duration := 1000, value := 4 }

/-- A MetricDesc with one string-valued and one numeric names entry. -/
def descMixed : MetricDescJ :=
  { metric_desc_uuid := 5, class_ := "throughput",
    names := [("host", JValue.vstr "a"), ("samples", JValue.vnum 3)],
    names_list := ["host", "samples"], source := "s", metric_type := "t",
    iteration_uuid := none, period_uuid := some 11, sample_uuid := none,
    run_uuid := 7 }

/-- A database in which metric descriptor 1 has an `env=prod` Name row but
no `host` Name row at all, plus one data point for it. -/
def dbNoHost : Db :=
  { runs := [], iterations := [], samples := [], periods := [],
    metric_descs := [{ metric_desc_uuid := 1, period_uuid := none,
                       metric_type := "t" }],
    names := [{ metric_desc_uuid := 1, name := "env", val := "prod" }],
    metric_datas := [{ metric_desc_uuid := 1, value := 5, begin_ := 0,
                       finish := 10, duration := 10 }] }

/-- A database in which descriptor 1 carries both breakout Name rows. -/
def dbBoth : Db :=
  { runs := [], iterations := [], samples := [], periods := [],
    metric_descs := [{ metric_desc_uuid := 1, period_uuid := none,
                       metric_type := "t" }],
    names := [{ metric_desc_uuid := 1, name := "host", val := "a" },
              { metric_desc_uuid := 1, name := "env", val := "prod" }],
    metric_datas := [{ metric_desc_uuid := 1, value := 5, begin_ := 0,
                       finish := 10, duration := 10 }] }

def mdBoth : MetricDataDbRow :=
  { metric_desc_uuid := 1, value := 5, begin_ := 0, finish := 10,
    duration := 10 }

/-- A nested run tree holding one iteration, sample, period, metric and
data point. -/
def runNodeW : RunNode :=
  { run_uuid := 7, begin_ := 0, finish := 1000, benchmark := "b",
    email := "e", name := "n", description := none, source := "s",
    tags := [],
    iterations := [
      { iteration_uuid := 2, num := 0, status := "pass", path := none,
        primary_metric := "m", primary_period := "p", params := [],
        samples := [
          { sample_uuid := 8, num := 0, status := "pass", path := none,
            periods := [
              { period_uuid := 6, begin_ := 0, finish := 1000, name := "w",
                metrics := [
                  { metric_desc_uuid := 3, class_ := "count",
                    metric_type := "t", source := "s", names := [],
                    data := [{ begin_ := 100, finish := 350, value := 1 }] }] }] }] }] }

/-! ## Theorems -/

/-- C3: the time-selector filter classifies a point `[pb,pf)` as
overlapping a window `[wb,wf)` exactly when `pb` falls strictly inside the
window, or `pf` falls strictly inside it, or the point strictly spans it;
both time-selector branches emit the same predicate, and a point whose
bounds equal the window bounds satisfies none of the three clauses. -/
theorem overlap_filter_characterization :
    ∀ pb pf wb wf : ℚ,
      overlapFilterRef pb pf wb wf = overlapFilterRange pb pf wb wf
      ∧ (overlapFilterRef pb pf wb wf = true ↔
          (wb < pb ∧ pb < wf) ∨ (wb < pf ∧ pf < wf) ∨ (pb < wb ∧ wf < pf))
      ∧ overlapFilterRef wb wf wb wf = false := by
  intro pb pf wb wf
  refine ⟨rfl, ?_, ?_⟩
  · simp [overlapFilterRef, or_assoc]
  · simp [overlapFilterRef]

/-- C1: the weighted-avg aggregator does build
`SUM(value * C) / SUM(C) as weighted_avg` with `C` the duration-correction
expression, but `C` is not the claimed adjusted duration: for the point
`[5s,10s]` lying entirely inside the window `[0s,20s]` (which the overlap
filter selects) it yields `-10000` ms instead of the full `5000` ms
duration, and for the point `[5s,15s]` overlapping only the trailing edge
of the window `[0s,10s]` it yields `10000` ms instead of the `5000` ms
overlapping portion. -/
theorem weighted_avg_correction_eval :
    pushChooseAggregatorFrags Aggregator.weightedAvg =
      [Frag.sql "SUM(metric_data.value * ", Frag.sql durationCorrectionSql,
       Frag.sql " ) / SUM( ", Frag.sql durationCorrectionSql,
       Frag.sql " ) as weighted_avg"]
    ∧ overlapFilterRef 5 10 0 20 = true
    ∧ adjustedDuration 5000 5 10 0 20 = -10000
    ∧ specAdjustedDuration 5000 5 10 0 20 = 5000
    ∧ overlapFilterRef 5 15 0 10 = true
    ∧ adjustedDuration 10000 5 15 0 10 = 10000
    ∧ specAdjustedDuration 10000 5 15 0 10 = 5000 := by
  refine ⟨rfl, ?_, by decide, by decide, ?_, by decide, by decide⟩
  · decide
  · decide

/-- C10: with fewer than two breakout tokens the anchor subquery's LEFT
JOIN gets no ON clause (neither the literal `" ON "` push nor a
`metric_desc_uuid` ON equality appears in the breakout section), and with
zero tokens the anchor is aliased `base` and filtered to Name rows whose
`name` is bound to the string `base`. -/
theorem breakout_anchor_no_on_clause (names : List (String × Option String))
    (h : names.length < 2) :
    (Frag.sql " ON " ∉ breakoutJoinFrags names
      ∧ ∀ l r, Frag.sqlOnEq l r ∉ breakoutJoinFrags names)
    ∧ (names = [] →
        breakoutJoinFrags names =
          [Frag.sql metricSubqueryPart, Frag.sql " AND name.name = ",
           Frag.bindStr "base", Frag.sqlAlias "base"]) := by
  match names, h with
  | [], _ =>
    refine ⟨⟨?_, ?_⟩, fun _ => rfl⟩
    · decide
    · intro l r
      simp [breakoutJoinFrags, anchorOf, chainFrags, pushMetricSubqueryFrags,
        metricSubqueryPart]
  | [(n, v)], _ =>
    refine ⟨⟨?_, ?_⟩, fun hc => by simp at hc⟩
    · have : breakoutJoinFrags [(n, v)] = pushMetricSubqueryFrags (some n) v := by
        simp [breakoutJoinFrags, anchorOf, chainFrags]
      rw [this]
      cases v with
      | none =>
        simp [pushMetricSubqueryFrags, metricSubqueryPart]
      | some s =>
        simp [pushMetricSubqueryFrags, metricSubqueryPart]
    · intro l r
      have : breakoutJoinFrags [(n, v)] = pushMetricSubqueryFrags (some n) v := by
        simp [breakoutJoinFrags, anchorOf, chainFrags]
      rw [this]
      cases v with
      | none => simp [pushMetricSubqueryFrags]
      | some s => simp [pushMetricSubqueryFrags]

/-- Witness for C10 at the concrete token lists `[]` and `["host"]`. -/
theorem breakout_anchor_no_on_clause_witness :
    breakoutJoinFrags [] =
      [Frag.sql metricSubqueryPart, Frag.sql " AND name.name = ",
       Frag.bindStr "base", Frag.sqlAlias "base"]
    ∧ Frag.sql " ON " ∉ breakoutJoinFrags [("host", Option.none)] :=
  ⟨(breakout_anchor_no_on_clause [] (by decide)).2 rfl,
   (breakout_anchor_no_on_clause [("host", Option.none)] (by decide)).1.1⟩

/-! ### Statement-kind and row-recovery lemmas for the insert functions -/

theorem names_map_flatMap (cs : List (List NameRow)) :
    (cs.map Stmt.names).flatMap stmtNameRows = cs.flatten := by
  induction cs with
  | nil => rfl
  | cons c cs ih => simp [stmtNameRows, ih]

theorem datas_map_flatMap (cs : List (List MetricDataJ)) :
    (cs.map Stmt.metricDatas).flatMap stmtDataRows = cs.flatten := by
  induction cs with
  | nil => rfl
  | cons c cs ih => simp [stmtDataRows, ih]

theorem descs_map_flatMap (f : List MetricDescJ → List MetricDescRow)
    (cs : List (List MetricDescJ)) :
    (cs.map fun grp => Stmt.metricDescs (f grp)).flatMap stmtDescRows =
      (cs.map f).flatten := by
  induction cs with
  | nil => rfl
  | cons c cs ih => simp [stmtDescRows, ih]

theorem insertNamesTr_rows (ns : List NameRow) :
    (insertNamesTr ns).1.flatMap stmtNameRows = ns := by
  by_cases h : ns.isEmpty
  · simp only [insertNamesTr, h, if_pos, List.flatMap_nil]
    exact (List.isEmpty_iff.mp h).symm
  · simp only [insertNamesTr, h, if_neg, Bool.false_eq_true, not_false_eq_true]
    rw [names_map_flatMap, chunksOf_join]

theorem insertMetricDatasTr_rows (ds : List MetricDataJ) :
    (insertMetricDatasTr ds).1.flatMap stmtDataRows = ds := by
  by_cases h : ds.isEmpty
  · simp only [insertMetricDatasTr, h, if_pos, List.flatMap_nil]
    exact (List.isEmpty_iff.mp h).symm
  · simp only [insertMetricDatasTr, h, if_neg, Bool.false_eq_true,
      not_false_eq_true]
    rw [datas_map_flatMap, chunksOf_join]

theorem insertMetricDescsTr_rows (g : List (ℕ × GlobalResource))
    (ds : List MetricDescJ) :
    (insertMetricDescsTr g ds).1.flatMap stmtDescRows = ds.map (descRow g) := by
  by_cases h : ds.isEmpty
  · simp only [insertMetricDescsTr, h, if_pos, List.flatMap_nil]
    rw [List.isEmpty_iff.mp h]
    rfl
  · simp only [insertMetricDescsTr, h, if_neg, Bool.false_eq_true,
      not_false_eq_true]
    rw [descs_map_flatMap]
    rw [← List.map_flatten, chunksOf_join]

theorem kind_insertRunsTr (fresh : ℕ) (rs : List RunJ) :
    ∀ s ∈ (insertRunsTr fresh rs).trace, kindOf s = Kind.run := by
  intro s hs
  by_cases h : rs.isEmpty
  · simp [insertRunsTr, h] at hs
  · simp [insertRunsTr, h] at hs
    subst hs; rfl

theorem kind_insertTagsTr (ts : List TagJ) :
    ∀ s ∈ (insertTagsTr ts).1, kindOf s = Kind.tag := by
  intro s hs
  by_cases h : ts.isEmpty
  · simp [insertTagsTr, h] at hs
  · simp [insertTagsTr, h] at hs
    subst hs; rfl

theorem kind_insertIterationsTr (its : List IterationJ) :
    ∀ s ∈ (insertIterationsTr its).1, kindOf s = Kind.iteration := by
  intro s hs
  by_cases h : its.isEmpty
  · simp [insertIterationsTr, h] at hs
  · simp [insertIterationsTr, h] at hs
    subst hs; rfl

theorem kind_insertParamsTr (ps : List ParamJ) :
    ∀ s ∈ (insertParamsTr ps).1, kindOf s = Kind.param := by
  intro s hs
  by_cases h : ps.isEmpty
  · simp [insertParamsTr, h] at hs
  · simp [insertParamsTr, h] at hs
    subst hs; rfl

theorem kind_insertSamplesTr (ss : List SampleJ) :
    ∀ s ∈ (insertSamplesTr ss).1, kindOf s = Kind.sample := by
  intro s hs
  by_cases h : ss.isEmpty
  · simp [insertSamplesTr, h] at hs
  · simp [insertSamplesTr, h] at hs
    subst hs; rfl

theorem kind_insertPeriodsTr (ps : List PeriodJ) :
    ∀ s ∈ (insertPeriodsTr ps).1, kindOf s = Kind.period := by
  intro s hs
  by_cases h : ps.isEmpty
  · simp [insertPeriodsTr, h] at hs
  · simp [insertPeriodsTr, h] at hs
    subst hs; rfl

theorem kind_insertMetricDescsTr (g : List (ℕ × GlobalResource))
    (ds : List MetricDescJ) :
    ∀ s ∈ (insertMetricDescsTr g ds).1, kindOf s = Kind.metricDesc := by
  intro s hs
  by_cases h : ds.isEmpty
  · simp [insertMetricDescsTr, h] at hs
  · simp [insertMetricDescsTr, h] at hs
    rcases hs with ⟨grp, -, rfl⟩
    rfl

theorem kind_insertNamesTr (ns : List NameRow) :
    ∀ s ∈ (insertNamesTr ns).1, kindOf s = Kind.name := by
  intro s hs
  by_cases h : ns.isEmpty
  · simp [insertNamesTr, h] at hs
  · simp [insertNamesTr, h] at hs
    rcases hs with ⟨grp, -, rfl⟩
    rfl

theorem kind_insertMetricDatasTr (ds : List MetricDataJ) :
    ∀ s ∈ (insertMetricDatasTr ds).1, kindOf s = Kind.metricData := by
  intro s hs
  by_cases h : ds.isEmpty
  · simp [insertMetricDatasTr, h] at hs
  · simp [insertMetricDatasTr, h] at hs
    rcases hs with ⟨grp, -, rfl⟩
    rfl

/-- C9 (amended): empty batches execute no statement and report zero rows
for every kind; non-empty MetricDesc, Name and MetricData batches are split
into one multi-row INSERT per chunk of at most 1024 rows whose chunks
recompose the batch, with the full batch size reported; but Run, Tag,
Iteration, Param, Sample and Period batches are always one single multi-row
INSERT holding the entire batch, however large. -/
theorem batch_chunking_amended :
    ((insertRunsTr 0 []).trace = [] ∧ (insertRunsTr 0 []).rows = 0
      ∧ insertTagsTr [] = ([], 0) ∧ insertIterationsTr [] = ([], 0)
      ∧ insertParamsTr [] = ([], 0) ∧ insertSamplesTr [] = ([], 0)
      ∧ insertPeriodsTr [] = ([], 0)
      ∧ (∀ g, insertMetricDescsTr g [] = ([], 0))
      ∧ insertNamesTr [] = ([], 0) ∧ insertMetricDatasTr [] = ([], 0))
    ∧ (∀ fresh rs, rs ≠ [] → (insertRunsTr fresh rs).trace = [Stmt.runs rs])
    ∧ (∀ ts, ts ≠ [] → insertTagsTr ts = ([Stmt.tags ts], ts.length))
    ∧ (∀ its, its ≠ [] →
        insertIterationsTr its = ([Stmt.iterations its], its.length))
    ∧ (∀ ps, ps ≠ [] → insertParamsTr ps = ([Stmt.params ps], ps.length))
    ∧ (∀ ss, ss ≠ [] → insertSamplesTr ss = ([Stmt.samples ss], ss.length))
    ∧ (∀ ps, ps ≠ [] → insertPeriodsTr ps = ([Stmt.periods ps], ps.length))
    ∧ (∀ g ds, (∀ s ∈ (insertMetricDescsTr g ds).1,
          ∃ rows, s = Stmt.metricDescs rows ∧ rows.length ≤ 1024)
        ∧ (insertMetricDescsTr g ds).1.flatMap stmtDescRows =
            ds.map (descRow g)
        ∧ (insertMetricDescsTr g ds).2 = ds.length)
    ∧ (∀ ns, (∀ s ∈ (insertNamesTr ns).1,
          ∃ rows, s = Stmt.names rows ∧ rows.length ≤ 1024)
        ∧ (insertNamesTr ns).1.flatMap stmtNameRows = ns
        ∧ (insertNamesTr ns).2 = ns.length)
    ∧ (∀ ds, (∀ s ∈ (insertMetricDatasTr ds).1,
          ∃ rows, s = Stmt.metricDatas rows ∧ rows.length ≤ 1024)
        ∧ (insertMetricDatasTr ds).1.flatMap stmtDataRows = ds
        ∧ (insertMetricDatasTr ds).2 = ds.length) := by
  refine ⟨⟨rfl, rfl, rfl, rfl, rfl, rfl, rfl, fun g => rfl, rfl, rfl⟩,
    ?_, ?_, ?_, ?_, ?_, ?_, ?_, ?_, ?_⟩
  · intro fresh rs h
    simp [insertRunsTr, List.isEmpty_iff, h]
  · intro ts h
    simp [insertTagsTr, List.isEmpty_iff, h]
  · intro its h
    simp [insertIterationsTr, List.isEmpty_iff, h]
  · intro ps h
    simp [insertParamsTr, List.isEmpty_iff, h]
  · intro ss h
    simp [insertSamplesTr, List.isEmpty_iff, h]
  · intro ps h
    simp [insertPeriodsTr, List.isEmpty_iff, h]
  · intro g ds
    refine ⟨?_, insertMetricDescsTr_rows g ds, ?_⟩
    · intro s hs
      by_cases h : ds.isEmpty
      · simp [insertMetricDescsTr, h] at hs
      · simp [insertMetricDescsTr, h] at hs
        rcases hs with ⟨grp, hgrp, rfl⟩
        exact ⟨grp.map (descRow g), rfl, by
          simpa using chunksOf_le hgrp⟩
    · by_cases h : ds.isEmpty
      · simp [insertMetricDescsTr, h, List.isEmpty_iff.mp h]
      · simp [insertMetricDescsTr, h, chunksOf_sum_length]
  · intro ns
    refine ⟨?_, insertNamesTr_rows ns, ?_⟩
    · intro s hs
      by_cases h : ns.isEmpty
      · simp [insertNamesTr, h] at hs
      · simp [insertNamesTr, h] at hs
        rcases hs with ⟨grp, hgrp, rfl⟩
        exact ⟨grp, rfl, chunksOf_le hgrp⟩
    · by_cases h : ns.isEmpty
      · simp [insertNamesTr, h, List.isEmpty_iff.mp h]
      · simp [insertNamesTr, h, chunksOf_sum_length]
  · intro ds
    refine ⟨?_, insertMetricDatasTr_rows ds, ?_⟩
    · intro s hs
      by_cases h : ds.isEmpty
      · simp [insertMetricDatasTr, h] at hs
      · simp [insertMetricDatasTr, h] at hs
        rcases hs with ⟨grp, hgrp, rfl⟩
        exact ⟨grp, rfl, chunksOf_le hgrp⟩
    · by_cases h : ds.isEmpty
      · simp [insertMetricDatasTr, h, List.isEmpty_iff.mp h]
      · simp [insertMetricDatasTr, h, chunksOf_sum_length]

/-- C9 counterexample: a Tag batch of 21846 rows is written as one single
INSERT statement — it is neither split at about 1,000 rows nor kept under
the backend's 65535 bound-parameter limit (Tag binds 3 parameters per row,
and 3 × 21846 = 65538 > 65535). -/
theorem batch_chunking_cex :
    (insertTagsTr (List.replicate 21846 tagA)).1 =
      [Stmt.tags (List.replicate 21846 tagA)]
    ∧ (List.replicate 21846 tagA).length = 21846
    ∧ 1024 < 21846 ∧ pgVarNumLimit < 3 * 21846 := by
  refine ⟨?_, List.length_replicate 21846 tagA, by norm_num,
    by norm_num [pgVarNumLimit]⟩
  have h : (List.replicate 21846 tagA).isEmpty = false := by
    rw [show (21846 : ℕ) = 21845 + 1 from rfl, List.replicate_succ]
    rfl
  unfold insertTagsTr
  rw [h]
  simp only [Bool.false_eq_true, if_false]

/-- C5 (amended): `duration = finish - begin` holds by construction for
every MetricData record flattened out of the nested-tree input and for the
synthesized placeholder point; a record parsed from the flat event stream
instead stores the document's own `duration` field verbatim, so for that
path the equation holds only if the input document satisfies it. -/
theorem duration_equals_span_amended :
    (∀ rn : RunNode, ∀ j : MetricDataJ,
        BodyJson.metricData j ∈ runToBodyJsons rn →
        j.duration = j.finish - j.begin_)
    ∧ (∀ u : ℕ, (metricDataGlobal u).duration =
        (metricDataGlobal u).finish - (metricDataGlobal u).begin_)
    ∧ (∀ du ru doc, (parseMetricDataBody du ru doc).duration = doc.duration
        ∧ (parseMetricDataBody du ru doc).begin_ = doc.begin_
        ∧ (parseMetricDataBody du ru doc).finish = doc.end_) := by
  refine ⟨?_, fun u => rfl, fun du ru doc => ⟨rfl, rfl, rfl⟩⟩
  intro rn j hj
  simp only [runToBodyJsons] at hj
  simp at hj
  obtain ⟨it, -, s, -, p, -, m, -, pt, -, h⟩ := hj
  subst h
  rfl

/-- C5 witness: the amended theorem applied to a concrete nested run tree
holding one data point, a concrete placeholder, and a concrete document. -/
theorem duration_equals_span_witness :
    ({ metric_desc_uuid := 3, run_uuid := 7, begin_ := 100, finish := 350,
       duration := 250, value := 1 } : MetricDataJ).duration =
      (350 : ℤ) - 100
    ∧ (metricDataGlobal 4).duration =
        (metricDataGlobal 4).finish - (metricDataGlobal 4).begin_
    ∧ (parseMetricDataBody 1 9 docBad).duration = docBad.duration :=
  ⟨duration_equals_span_amended.1 runNodeW _ (by decide),
   duration_equals_span_amended.2.1 4,
   (duration_equals_span_amended.2.2 1 9 docBad).1⟩

/-- C5 counterexample: the flat event stream record built from a document
stating `begin = 0`, `end = 1000`, `duration = 7` is ingested as-is: the
single MetricData INSERT binds duration 7 while `finish - begin` is 1000. -/
theorem duration_equals_span_cex :
    (insertRecordsTr 0 [BodyJson.metricData mdBad]).1 =
      [Stmt.metricDatas [mdBad]]
    ∧ mdBad = parseMetricDataBody 1 9 docBad
    ∧ mdBad.duration = 7 ∧ mdBad.finish - mdBad.begin_ = 1000 := by
  refine ⟨?_, rfl, rfl, rfl⟩
  decide

/-- C6 (amended): within one transaction the executed insert statements
decompose into consecutive per-kind segments in the fixed order Run, Tag,
Iteration, Param, Sample, Period, MetricDesc, Name, MetricData on the
`insert_records` path (file parse and nested add), with the Name segment's
rows exactly the authored Name bodies followed by the rows derived from the
authored MetricDescs; the `import` path executes the same order but without
any Name segment — no Name rows are inserted there. -/
theorem insert_order_amended :
    (∀ fresh records, ∃ t1 t2 t3 t4 t5 t6 t7 t8 t9 : List Stmt,
      (insertRecordsTr fresh records).1 =
        t1 ++ t2 ++ t3 ++ t4 ++ t5 ++ t6 ++ t7 ++ t8 ++ t9
      ∧ (∀ s ∈ t1, kindOf s = Kind.run)
      ∧ (∀ s ∈ t2, kindOf s = Kind.tag)
      ∧ (∀ s ∈ t3, kindOf s = Kind.iteration)
      ∧ (∀ s ∈ t4, kindOf s = Kind.param)
      ∧ (∀ s ∈ t5, kindOf s = Kind.sample)
      ∧ (∀ s ∈ t6, kindOf s = Kind.period)
      ∧ (∀ s ∈ t7, kindOf s = Kind.metricDesc)
      ∧ (∀ s ∈ t8, kindOf s = Kind.name)
      ∧ (∀ s ∈ t9, kindOf s = Kind.metricData)
      ∧ t8.flatMap stmtNameRows =
          bucketNames records ++
            (bucketMetricDescs records).flatMap extractNames)
    ∧ (∀ fresh rs ts its ps ss pds mds datas,
        ∃ u1 u2 u3 u4 u5 u6 u7 u8 : List Stmt,
          (importTr fresh rs ts its ps ss pds mds datas).1 =
            u1 ++ u2 ++ u3 ++ u4 ++ u5 ++ u6 ++ u7 ++ u8
          ∧ (∀ s ∈ u1, kindOf s = Kind.run)
          ∧ (∀ s ∈ u2, kindOf s = Kind.tag)
          ∧ (∀ s ∈ u3, kindOf s = Kind.iteration)
          ∧ (∀ s ∈ u4, kindOf s = Kind.param)
          ∧ (∀ s ∈ u5, kindOf s = Kind.sample)
          ∧ (∀ s ∈ u6, kindOf s = Kind.period)
          ∧ (∀ s ∈ u7, kindOf s = Kind.metricDesc)
          ∧ (∀ s ∈ u8, kindOf s = Kind.metricData)
          ∧ ∀ s ∈ (importTr fresh rs ts its ps ss pds mds datas).1,
              kindOf s ≠ Kind.name) := by
  constructor
  · intro fresh records
    refine ⟨_, _, _, _, _, _, _, _, _, rfl, kind_insertRunsTr _ _,
      kind_insertTagsTr _, kind_insertIterationsTr _, kind_insertParamsTr _,
      kind_insertSamplesTr _, kind_insertPeriodsTr _,
      kind_insertMetricDescsTr _ _, kind_insertNamesTr _,
      kind_insertMetricDatasTr _, insertNamesTr_rows _⟩
  · intro fresh rs ts its ps ss pds mds datas
    refine ⟨_, _, _, _, _, _, _, _, rfl, kind_insertRunsTr _ _,
      kind_insertTagsTr _, kind_insertIterationsTr _, kind_insertParamsTr _,
      kind_insertSamplesTr _, kind_insertPeriodsTr _,
      kind_insertMetricDescsTr _ _, kind_insertMetricDatasTr _, ?_⟩
    intro s hs
    simp only [importTr, List.mem_append] at hs
    rcases hs with ((((((h | h) | h) | h) | h) | h) | h) | h
    · rw [kind_insertRunsTr _ _ s h]; decide
    · rw [kind_insertTagsTr _ s h]; decide
    · rw [kind_insertIterationsTr _ s h]; decide
    · rw [kind_insertParamsTr _ s h]; decide
    · rw [kind_insertSamplesTr _ s h]; decide
    · rw [kind_insertPeriodsTr _ s h]; decide
    · rw [kind_insertMetricDescsTr _ _ s h]; decide
    · rw [kind_insertMetricDatasTr _ s h]; decide

/-- C6 counterexample: importing a MetricDesc that carries a string-valued
names entry together with a MetricData point executes exactly a MetricDesc
INSERT followed by a MetricData INSERT — the claimed Name insert between
them never happens on the import path although derived Name rows exist. -/
theorem insert_order_cex :
    ((importTr 0 [] [] [] [] [] [] [descImpB] [dataImpB]).1.map kindOf) =
      [Kind.metricDesc, Kind.metricData]
    ∧ extractNames descImpB =
        [{ metric_desc_uuid := 2, name := "env", val := "prod" }] := by
  decide

/-- C8: the Name decomposition is not performed on the import path — the
evaluation of one `import` round over a MetricDesc whose names map holds the
string entry `host = a` executes only a MetricDesc and a MetricData INSERT,
and no statement of Name kind, even though `extract_names` derives a Name
row from that descriptor. -/
theorem import_drops_name_rows :
    (importTr 0 [] [] [] [] [] [] [descImp] [dataImp]).1 =
      [Stmt.metricDescs [descRow [] descImp], Stmt.metricDatas [dataImp]]
    ∧ extractNames descImp =
        [{ metric_desc_uuid := 1, name := "host", val := "a" }]
    ∧ ∀ s ∈ (importTr 0 [] [] [] [] [] [] [descImp] [dataImp]).1,
        kindOf s ≠ Kind.name := by
  decide

/-! ### The placeholder chain (C7) -/

theorem runGlobals_length (fresh : ℕ) (rs : List RunJ) :
    (runGlobals fresh rs).length = rs.length := by
  induction rs generalizing fresh with
  | nil => rfl
  | cons r rs ih => simp [runGlobals, ih]

theorem globalsLookup_not_mem (fresh : ℕ) (rs : List RunJ) (u : ℕ)
    (hu : u ∉ rs.map RunJ.run_uuid) :
    globalsLookup (runGlobals fresh rs) u = Option.none := by
  induction rs generalizing fresh with
  | nil => rfl
  | cons r rs ih =>
    simp only [List.map_cons, List.mem_cons, not_or] at hu
    simp [runGlobals, globalsLookup, ih (fresh + 4) hu.2, hu.1,
      Ne.symm hu.1]

theorem globalsLookup_mem (fresh : ℕ) (rs : List RunJ)
    (hnd : (rs.map RunJ.run_uuid).Nodup) (r : RunJ) (hr : r ∈ rs) :
    ∃ base, globalsLookup (runGlobals fresh rs) r.run_uuid =
      some (mkGlobalResource r.run_uuid base) := by
  induction rs generalizing fresh with
  | nil => simp at hr
  | cons r' rs ih =>
    simp only [List.map_cons, List.nodup_cons] at hnd
    rcases List.mem_cons.mp hr with hr | hr
    · subst hr
      refine ⟨fresh, ?_⟩
      simp [runGlobals, globalsLookup,
        globalsLookup_not_mem (fresh + 4) rs r.run_uuid hnd.1]
    · obtain ⟨base, hb⟩ := ih (fresh + 4) hnd.2 hr
      exact ⟨base, by simp [runGlobals, globalsLookup, hb]⟩

/-- C7: for every Run of a batch with distinct run UUIDs, exactly one
placeholder chain is synthesized (one map entry per run), with one fresh
UUID per level (the four are pairwise distinct), linked Iteration from Run,
Sample from Iteration, Period from Sample, MetricDesc from Period (and the
zero MetricData point from the MetricDesc), carrying the sentinel values
status `pass`, num 0, class `count`, empty names and names_list and
source/metric_type `global`; the chain is recorded in the Run-to-placeholder
map, and its Period UUID is the period reference resolved for any
MetricDesc of that Run that arrives without an explicit period parent
(while an explicit parent is kept as-is). -/
theorem placeholder_chain (fresh : ℕ) (runs : List RunJ)
    (hnd : (runs.map RunJ.run_uuid).Nodup) (r : RunJ) (hr : r ∈ runs) :
    (runGlobals fresh runs).length = runs.length
    ∧ ∃ g : GlobalResource,
      globalsLookup (runGlobals fresh runs) r.run_uuid = some g
      ∧ g.iteration.run_uuid = r.run_uuid
      ∧ g.sample.iteration_uuid = g.iteration.iteration_uuid
      ∧ g.period.sample_uuid = g.sample.sample_uuid
      ∧ g.metric_desc.period_uuid = some g.period.period_uuid
      ∧ g.metric_data.metric_desc_uuid = g.metric_desc.metric_desc_uuid
      ∧ List.Nodup [g.iteration.iteration_uuid, g.sample.sample_uuid,
          g.period.period_uuid, g.metric_desc.metric_desc_uuid]
      ∧ g.iteration.status = "pass" ∧ g.iteration.num = 0
      ∧ g.iteration.primary_metric = "global"
      ∧ g.iteration.primary_period = "global"
      ∧ g.sample.status = "pass" ∧ g.sample.num = 0
      ∧ g.period.name = "global"
      ∧ g.metric_desc.class_ = "count" ∧ g.metric_desc.names = []
      ∧ g.metric_desc.names_list = [] ∧ g.metric_desc.source = "global"
      ∧ g.metric_desc.metric_type = "global"
      ∧ (∀ md : MetricDescJ, md.period_uuid = Option.none →
          md.run_uuid = r.run_uuid →
          resolvePeriod (runGlobals fresh runs) md =
            some g.period.period_uuid)
      ∧ (∀ md pu, md.period_uuid = some pu →
          resolvePeriod (runGlobals fresh runs) md = some pu) := by
  refine ⟨runGlobals_length fresh runs, ?_⟩
  obtain ⟨base, hb⟩ := globalsLookup_mem fresh runs hnd r hr
  refine ⟨mkGlobalResource r.run_uuid base, hb, rfl, rfl, rfl, rfl, rfl,
    ?_, rfl, rfl, rfl, rfl, rfl, rfl, rfl, rfl, rfl, rfl, rfl, rfl,
    ?_, ?_⟩
  · simp [mkGlobalResource, iterationGlobal, sampleGlobal, periodGlobal,
      metricDescGlobal]
  · intro md h1 h2
    simp [resolvePeriod, h1, h2, hb]
  · intro md pu h
    simp [resolvePeriod, h]

/-- C7 witness: the chain synthesized for the one-run batch `[runA]` with
the fresh-UUID counter at 100. -/
theorem placeholder_chain_witness :
    (runGlobals 100 [runA]).length = 1
    ∧ ∃ g : GlobalResource,
      globalsLookup (runGlobals 100 [runA]) runA.run_uuid = some g
      ∧ g.iteration.run_uuid = runA.run_uuid
      ∧ g.metric_desc.period_uuid = some g.period.period_uuid := by
  obtain ⟨hlen, g, hg, hrun, -, -, hdesc, -⟩ :=
    placeholder_chain 100 [runA] (by decide) runA (by decide)
  exact ⟨hlen, g, hg, hrun, hdesc⟩

/-! ### The time-window generator (C2) -/

/-- The windows in closed form: with `d = (t1-t0)/n`, window `k` is
`[t0 + k·d, t0 + (k+1)·d)` for `k < n`. -/
theorem timeWindows_eq (t0 t1 : ℚ) (n : ℕ) (h0 : t0 < t1) (hn : 1 ≤ n) :
    timeWindows t0 t1 n = (List.range n).map
      fun (k : ℕ) => (t0 + (k : ℚ) * ((t1 - t0) / (n : ℚ)),
                t0 + (k : ℚ) * ((t1 - t0) / (n : ℚ)) + (t1 - t0) / (n : ℚ)) := by
  have hnq : (0 : ℚ) < (n : ℚ) := by exact_mod_cast hn
  have hd : (0 : ℚ) < (t1 - t0) / (n : ℚ) := div_pos (by linarith) hnq
  have hsub : t1 - t0 ≠ 0 := by intro h; linarith [sub_eq_zero.mp h]
  have hquot : (t1 - t0) / ((t1 - t0) / (n : ℚ)) = (n : ℚ) := by
    rw [div_div_eq_mul_div, mul_comm, mul_div_assoc, div_self hsub, mul_one]
  simp only [timeWindows, generateSeries]
  rw [if_pos ⟨hd, le_of_lt h0⟩, hquot, Nat.floor_natCast]
  rw [List.map_map, ← List.map_take, List.take_range,
    min_eq_left (Nat.le_succ n)]
  rfl

/-- C2: for every reference interval `[t0, t1)` and resolution `n ≥ 1`, the
generated `woi` relation holds exactly `n` windows, each of width
`(t1-t0)/n`, contiguous (each window's finish is the next window's begin),
ordered by window begin and pairwise non-overlapping, and together they
cover a point `x` exactly when `t0 ≤ x < t1`. Both time-selector modes (a
reference period's bounds, or an explicit begin/finish pair) generate their
windows through this same arithmetic. -/
theorem window_partition (t0 t1 : ℚ) (n : ℕ) (h0 : t0 < t1) (hn : 1 ≤ n) :
    (timeWindows t0 t1 n).length = n
    ∧ (∀ w ∈ timeWindows t0 t1 n, w.2 - w.1 = (t1 - t0) / (n : ℚ))
    ∧ List.Chain' (fun w w' => w.2 = w'.1) (timeWindows t0 t1 n)
    ∧ List.Pairwise (fun w w' => w.1 < w'.1 ∧ w.2 ≤ w'.1) (timeWindows t0 t1 n)
    ∧ (∀ x : ℚ, (∃ w ∈ timeWindows t0 t1 n, w.1 ≤ x ∧ x < w.2) ↔
        t0 ≤ x ∧ x < t1) := by
  have hnq : (0 : ℚ) < (n : ℚ) := by exact_mod_cast hn
  have hd : (0 : ℚ) < (t1 - t0) / (n : ℚ) := div_pos (by linarith) hnq
  have hnd : (n : ℚ) * ((t1 - t0) / (n : ℚ)) = t1 - t0 := by field_simp
  have E := timeWindows_eq t0 t1 n h0 hn
  set d := (t1 - t0) / (n : ℚ) with hdd
  refine ⟨?_, ?_, ?_, ?_, ?_⟩
  · rw [E]; simp
  · rw [E]
    intro w hw
    simp only [List.mem_map, List.mem_range] at hw
    obtain ⟨k, -, rfl⟩ := hw
    ring
  · rw [E]
    cases n with
    | zero => simp
    | succ m =>
      rw [List.chain'_map, List.chain'_range_succ]
      intro i _
      push_cast
      ring
  · rw [E, List.pairwise_map]
    refine (List.pairwise_lt_range n).imp ?_
    intro a b hab
    dsimp only
    have h1 : (a : ℚ) < (b : ℚ) := by exact_mod_cast hab
    have h2 : (a : ℚ) + 1 ≤ (b : ℚ) := by exact_mod_cast hab
    have hm1 : (a : ℚ) * d < (b : ℚ) * d := mul_lt_mul_of_pos_right h1 hd
    have hm2 : (a : ℚ) * d + d ≤ (b : ℚ) * d := by
      have := mul_le_mul_of_nonneg_right h2 hd.le
      nlinarith [this]
    exact ⟨by linarith, by linarith⟩
  · intro x
    constructor
    · rintro ⟨w, hw, hx1, hx2⟩
      rw [E] at hw
      simp only [List.mem_map, List.mem_range] at hw
      obtain ⟨k, hk, rfl⟩ := hw
      dsimp only at hx1 hx2
      have hk1 : (0 : ℚ) ≤ (k : ℚ) * d :=
        mul_nonneg (Nat.cast_nonneg k) hd.le
      have hk2 : (k : ℚ) + 1 ≤ (n : ℚ) := by exact_mod_cast Nat.succ_le_of_lt hk
      have hk3 : (k : ℚ) * d + d ≤ (n : ℚ) * d := by
        have := mul_le_mul_of_nonneg_right hk2 hd.le
        nlinarith [this]
      exact ⟨by linarith, by linarith⟩
    · rintro ⟨hx1, hx2⟩
      have hq0 : (0 : ℚ) ≤ (x - t0) / d := div_nonneg (by linarith) hd.le
      have hkle : ((⌊(x - t0) / d⌋₊ : ℚ)) ≤ (x - t0) / d := Nat.floor_le hq0
      have hklt : (x - t0) / d < (⌊(x - t0) / d⌋₊ : ℚ) + 1 :=
        Nat.lt_floor_add_one _
      have hkn : ⌊(x - t0) / d⌋₊ < n := by
        refine (Nat.floor_lt hq0).mpr ?_
        rw [div_lt_iff₀ hd]
        linarith [hnd]
      refine ⟨(t0 + (⌊(x - t0) / d⌋₊ : ℚ) * d,
               t0 + (⌊(x - t0) / d⌋₊ : ℚ) * d + d), ?_, ?_, ?_⟩
      · rw [E]
        exact List.mem_map.mpr ⟨⌊(x - t0) / d⌋₊, List.mem_range.mpr hkn, rfl⟩
      · have := (le_div_iff₀ hd).mp hkle
        linarith
      · have := (div_lt_iff₀ hd).mp hklt
        linarith

/-- C2 witness: the partition of `[0, 4)` into four unit windows. -/
theorem window_partition_witness :
    (timeWindows 0 4 4).length = 4
    ∧ (∀ x : ℚ, (∃ w ∈ timeWindows 0 4 4, w.1 ≤ x ∧ x < w.2) ↔
        0 ≤ x ∧ x < 4) :=
  ⟨(window_partition 0 4 4 (by norm_num) (by norm_num)).1,
   (window_partition 0 4 4 (by norm_num) (by norm_num)).2.2.2.2⟩

/-! ### LEFT JOIN semantics (C4) -/

theorem leftJoinWith_exists {l : List α} {r : List β} {onp : α → β → Bool}
    {mk : α → Option β → γ} {a : α} (ha : a ∈ l) :
    ∃ ob, mk a ob ∈ leftJoinWith l r onp mk := by
  unfold leftJoinWith
  rcases hm : r.filter (onp a) with _ | ⟨b, bs⟩
  · refine ⟨Option.none, List.mem_flatMap.mpr ⟨a, ha, ?_⟩⟩
    rw [hm]
    exact List.mem_singleton_self _
  · refine ⟨some b, List.mem_flatMap.mpr ⟨a, ha, ?_⟩⟩
    rw [hm]
    exact List.mem_map.mpr ⟨b, List.mem_cons_self b bs, rfl⟩

theorem leftJoinWith_mem {l : List α} {r : List β} {onp : α → β → Bool}
    {mk : α → Option β → γ} {g : γ} (hg : g ∈ leftJoinWith l r onp mk) :
    ∃ a ∈ l, g = mk a Option.none
      ∨ ∃ b, b ∈ r ∧ onp a b = true ∧ g = mk a (some b) := by
  unfold leftJoinWith at hg
  obtain ⟨a, ha, hmem⟩ := List.mem_flatMap.mp hg
  refine ⟨a, ha, ?_⟩
  rcases hm : r.filter (onp a) with _ | ⟨b, bs⟩ <;> rw [hm] at hmem
  · exact Or.inl (List.mem_singleton.mp hmem)
  · right
    obtain ⟨b', hb', rfl⟩ := List.mem_map.mp hmem
    have hbf : b' ∈ r.filter (onp a) := by rw [hm]; exact hb'
    have := List.mem_filter.mp hbf
    exact ⟨b', this.1, this.2, rfl⟩

/-- A row of a breakout subquery carries the `metric_desc_uuid` and `val`
of a Name row of the database whose `name` (and, when filtered, `val`)
matches the subquery's filter. -/
theorem subqueryRows_name {db : Db} {mn mv : Option String} {sr : SubRow}
    (h : sr ∈ subqueryRows db mn mv) :
    ∃ nr, nr ∈ db.names ∧ nr.metric_desc_uuid = sr.metric_desc_uuid
      ∧ (∀ nm, mn = some nm → nr.name = nm)
      ∧ (∀ v, mv = some v → nr.val = v) := by
  unfold subqueryRows at h
  obtain ⟨t, ht, hsr⟩ := List.mem_filterMap.mp h
  obtain ⟨d, -, hrest⟩ := List.mem_flatMap.mp ht
  obtain ⟨nr, hnr, hmd⟩ := List.mem_flatMap.mp hrest
  obtain ⟨mdr, -, rfl⟩ := List.mem_map.mp hmd
  split at hsr
  case isTrue hcond =>
    obtain rfl := Option.some.inj hsr
    refine ⟨nr, hnr, rfl, ?_, ?_⟩
    · intro nm hnm
      subst hnm
      simp only [Bool.and_eq_true, beq_iff_eq] at hcond
      exact hcond.1.2
    · intro v hv
      subst hv
      simp only [Bool.and_eq_true, beq_iff_eq] at hcond
      exact hcond.2
  case isFalse => exact absurd hsr (by simp)

/-- A LEFT JOIN whose row constructor keeps the `md` column intact retains
every row of its left input (possibly multiplied, never dropped). -/
theorem retention_lift {β : Type} {l : List JoinedRow} {r : List β}
    {onp : JoinedRow → β → Bool} {mk : JoinedRow → Option β → JoinedRow}
    {md : MetricDataDbRow} (h : ∃ row ∈ l, row.md = md)
    (hmk : ∀ row ob, (mk row ob).md = row.md) :
    ∃ row ∈ leftJoinWith l r onp mk, row.md = md := by
  obtain ⟨row, hrow, hm⟩ := h
  obtain ⟨ob, hmem⟩ := leftJoinWith_exists hrow
  exact ⟨mk row ob, hmem, by rw [hmk, hm]⟩

set_option maxHeartbeats 2000000 in
/-- C4 (amended): in the statement built for the breakout tokens
`["host", "env=prod"]`, every `metric_data` row is retained in the result —
the breakout subqueries are attached by LEFT JOINs, so descriptors lacking
either Name row keep their rows, with NULL pivot columns, rather than being
excluded; whenever the `host` pivot column is non-NULL it is joined on the
row descriptor's own `metric_desc_uuid` and witnessed by a Name row with
name `host` (any value), and whenever the `env` pivot column is non-NULL it
is chained to the `host` subquery row on equal `metric_desc_uuid` and
witnessed by a Name row with name `env` and val `prod`. -/
theorem breakout_chaining_amended (db : Db) :
    (∀ md ∈ db.metric_datas, ∃ row ∈ hostEnvQueryRows db, row.md = md)
    ∧ (∀ row ∈ hostEnvQueryRows db, ∀ h, row.host = some h →
        (∃ d, row.desc = some d
            ∧ d.metric_desc_uuid = h.metric_desc_uuid)
        ∧ ∃ nr, nr ∈ db.names ∧ nr.name = "host"
            ∧ nr.metric_desc_uuid = h.metric_desc_uuid)
    ∧ (∀ row ∈ hostEnvQueryRows db, ∀ e, row.env = some e →
        (∃ h, row.host = some h
            ∧ h.metric_desc_uuid = e.metric_desc_uuid)
        ∧ ∃ nr, nr ∈ db.names ∧ nr.name = "env" ∧ nr.val = "prod"
            ∧ nr.metric_desc_uuid = e.metric_desc_uuid) := by
  refine ⟨?_, ?_, ?_⟩
  · intro md hmd
    have h0 : ∃ row ∈ baseRows db, row.md = md :=
      ⟨_, List.mem_map.mpr ⟨md, hmd, rfl⟩, rfl⟩
    unfold hostEnvQueryRows joinHost joinRun joinIteration joinSample
      joinPeriod joinDesc
    exact retention_lift (retention_lift (retention_lift (retention_lift
      (retention_lift (retention_lift (retention_lift h0 (fun _ _ => rfl))
            (fun _ _ => rfl)) (fun _ _ => rfl)) (fun _ _ => rfl))
          (fun _ _ => rfl)) (fun _ _ => rfl)) (fun _ _ => rfl)
  · intro row hrow h hh
    unfold hostEnvQueryRows at hrow
    obtain ⟨a6, ha6, hc⟩ := leftJoinWith_mem hrow
    have hhost6 : a6.host = some h := by
      rcases hc with rfl | ⟨e, -, -, rfl⟩ <;> simpa using hh
    have hdesc6 : row.desc = a6.desc := by
      rcases hc with rfl | ⟨e, -, -, rfl⟩ <;> rfl
    unfold joinHost at ha6
    obtain ⟨a5, ha5, hc6⟩ := leftJoinWith_mem ha6
    rcases hc6 with rfl | ⟨hb, hbmem, honp, rfl⟩
    · exact absurd hhost6 (by simp)
    · have hbe : hb = h := by simpa using hhost6
      subst hbe
      constructor
      · rcases hd : a5.desc with _ | d
        · rw [hd] at honp
          simp at honp
        · rw [hd] at honp
          simp only [beq_iff_eq] at honp
          refine ⟨d, ?_, honp⟩
          rw [hdesc6]
          exact hd
      · obtain ⟨nr, hnr, huuid, hname, -⟩ := subqueryRows_name hbmem
        exact ⟨nr, hnr, hname "host" rfl, huuid⟩
  · intro row hrow e he
    unfold hostEnvQueryRows at hrow
    obtain ⟨a6, ha6, hc⟩ := leftJoinWith_mem hrow
    rcases hc with rfl | ⟨eb, hebmem, honp, rfl⟩
    · exact absurd he (by simp)
    · have heb : eb = e := by simpa using he
      subst heb
      constructor
      · rcases hh : a6.host with _ | h
        · rw [hh] at honp
          simp at honp
        · rw [hh] at honp
          simp only [beq_iff_eq] at honp
          exact ⟨h, rfl, honp⟩
      · obtain ⟨nr, hnr, huuid, hname, hval⟩ := subqueryRows_name hebmem
        exact ⟨nr, hnr, hname "env" rfl, hval "prod" rfl, huuid⟩

/-- C4 counterexample: in `dbNoHost`, descriptor 1 has no Name row with
name `host` at all, yet its data point is not excluded from the built
statement's rows — it survives with both pivot columns NULL, refuting the
claimed inner-join restriction. -/
theorem breakout_chaining_cex :
    (hostEnvQueryRows dbNoHost).length = 1
    ∧ (∀ nr ∈ dbNoHost.names, nr.name ≠ "host")
    ∧ ∀ row ∈ hostEnvQueryRows dbNoHost,
        row.host = Option.none ∧ row.env = Option.none := by
  decide

/-- C4 witness: in `dbBoth` the single data row of descriptor 1 is present,
and the amended theorem applies to the database. -/
theorem breakout_chaining_witness :
    ∃ row ∈ hostEnvQueryRows dbBoth, row.md = mdBoth :=
  (breakout_chaining_amended dbBoth).1 mdBoth (by decide)

end SCDM
